import Mathlib

/-!
# Kindling collector: ReplicaSet metadata cache and application sequencing

A shallow embedding of

* `collector/metadata/kubernetes/replicaset_watch.go` (the ReplicaSet owner cache and
  its add / update / delete notification handlers), and
* `collector/application/application.go` (`Run`, `Shutdown`, `buildPipeline`),

together with the properties established about them.

Conventions of the embedding:

* a Go `map[string]*ReplicaSetInfo` is a partial function `String → Option ReplicaSetInfo`;
* a Go `error` is an `Option`, `none` being `nil`;
* every function that takes a lock returns, next to its result, the list of lock events it
  performed, oldest first;
* a notification payload is already a `ReplicaSet` (the type assertion of the handlers
  is taken to succeed).
-/

namespace Kindling

namespace Kubernetes

/-! ## Kubernetes API objects (the fields the handlers read) -/

/-- The `metav1.OwnerReference` fields; `Controller` is a `*bool` in Go. -/
structure OwnerReference where
  APIVersion : String
  Kind : String
  Name : String
  UID : String
  Controller : Option Bool
  BlockOwnerDeletion : Option Bool
  deriving DecidableEq, Repr

/-- The `appv1.ReplicaSet` fields read by the handlers (all from its `ObjectMeta`). -/
structure ReplicaSet where
  Namespace : String
  Name : String
  ResourceVersion : String
  Labels : List (String × String)
  OwnerReferences : List OwnerReference
  deriving DecidableEq, Repr

/-- The `metav1.GetControllerOfNoCopy` library function: the first owner reference whose
`Controller` pointer is non-nil and points to `true`; `none` (nil) when there is none. -/
def GetControllerOfNoCopy (rs : ReplicaSet) : Option OwnerReference :=
  rs.OwnerReferences.find? (fun ref => ref.Controller == some true)

/-! ## The cache -/

/-- The `Controller` struct. -/
structure Controller where
  Name : String
  Kind : String
  APIVersion : String
  deriving DecidableEq, Repr

/-- The `ReplicaSetInfo` struct: an embedded `*Controller` and the labels. -/
structure ReplicaSetInfo where
  Controller : Controller
  Labels : List (String × String)
  deriving DecidableEq, Repr

/-- The `ReplicaSetMap` struct: `Info` maps `namespace/name` to the record; the `mut`
field is represented by the lock events of the methods. -/
@[ext]
structure ReplicaSetMap where
  Info : String → Option ReplicaSetInfo

/-- Lock events on the two locks of the file: `rsUpdateMutex` and `ReplicaSetMap.mut`. -/
inductive LockEvent where
  | rsUpdateMutexLock
  | rsUpdateMutexUnlock
  | mutLock
  | mutUnlock
  | mutRLock
  | mutRUnlock
  deriving DecidableEq, Repr

/-- The `newReplicaSetMap` constructor: an empty map. -/
def newReplicaSetMap : ReplicaSetMap :=
  { Info := fun _ => none }

/-- Modelled from the spec: `mapKey`, a helper of the package that is defined outside the
two source files; the spec gives the key as `namespace + "/" + name`. -/
def mapKey (namespace_ : String) (name : String) : String :=
  namespace_ ++ "/" ++ name

/-- The method `(rs *ReplicaSetMap) put`: `rs.Info[key] = rsi` under the write lock. -/
def ReplicaSetMap.put (rs : ReplicaSetMap) (key : String) (rsi : ReplicaSetInfo) :
    ReplicaSetMap × List LockEvent :=
  ({ Info := fun k => if k = key then some rsi else rs.Info k },
   [LockEvent.mutLock, LockEvent.mutUnlock])

/-- The method `(rs *ReplicaSetMap) GetReplicaSetInfo`: `result, ok := rs.Info[key]`
under the read lock; the result pointer is `none` (nil) when `ok` is false. -/
def ReplicaSetMap.GetReplicaSetInfo (rs : ReplicaSetMap) (key : String) :
    (Option ReplicaSetInfo × Bool) × List LockEvent :=
  ((rs.Info key, (rs.Info key).isSome), [LockEvent.mutRLock, LockEvent.mutRUnlock])

/-- The method `(rs *ReplicaSetMap) deleteOwnerReference`: `delete(rs.Info, key)` under
the write lock. -/
def ReplicaSetMap.deleteOwnerReference (rs : ReplicaSetMap) (key : String) :
    ReplicaSetMap × List LockEvent :=
  ({ Info := fun k => if k = key then none else rs.Info k },
   [LockEvent.mutLock, LockEvent.mutUnlock])

/-! ## The notification handlers

Each handler takes the current value of the global `globalRsInfo` and returns its new
value with the lock events of the invocation. -/

/-- The handler `onAddReplicaSet`. -/
def onAddReplicaSet (globalRsInfo : ReplicaSetMap) (rs : ReplicaSet) :
    ReplicaSetMap × List LockEvent :=
  match GetControllerOfNoCopy rs with
  | none => (globalRsInfo, [])
  | some ownerRef =>
    let controller : Controller :=
      { Name := ownerRef.Name, Kind := ownerRef.Kind, APIVersion := ownerRef.APIVersion }
    let replicaSetInfo : ReplicaSetInfo :=
      { Controller := controller, Labels := rs.Labels }
    globalRsInfo.put (mapKey rs.Namespace rs.Name) replicaSetInfo

/-- The handler `onDeleteReplicaSet`. -/
def onDeleteReplicaSet (globalRsInfo : ReplicaSetMap) (rs : ReplicaSet) :
    ReplicaSetMap × List LockEvent :=
  globalRsInfo.deleteOwnerReference (mapKey rs.Namespace rs.Name)

/-- The handler `OnUpdateReplicaSet`: nothing when the resource versions agree; otherwise
`onDeleteReplicaSet(objOld)` then `onAddReplicaSet(objNew)` between `rsUpdateMutex.Lock()`
and `rsUpdateMutex.Unlock()`. -/
def OnUpdateReplicaSet (globalRsInfo : ReplicaSetMap) (oldRs newRs : ReplicaSet) :
    ReplicaSetMap × List LockEvent :=
  if newRs.ResourceVersion = oldRs.ResourceVersion then
    (globalRsInfo, [])
  else
    let afterDelete := onDeleteReplicaSet globalRsInfo oldRs
    let afterAdd := onAddReplicaSet afterDelete.1 newRs
    (afterAdd.1,
      [LockEvent.rsUpdateMutexLock] ++ afterDelete.2 ++ afterAdd.2 ++
        [LockEvent.rsUpdateMutexUnlock])

/-! ## The notification stream

`RsWatch` registers the three handlers with the informer (`AddFunc`, `UpdateFunc`,
`DeleteFunc`); the informer then calls them one notification at a time. -/

/-- A notification of the informer, with its payload. -/
inductive Notification where
  | add (obj : ReplicaSet)
  | update (objOld objNew : ReplicaSet)
  | delete (obj : ReplicaSet)
  deriving DecidableEq, Repr

/-- The dispatch of `cache.ResourceEventHandlerFuncs` as registered in `RsWatch`. -/
def Notification.handle (globalRsInfo : ReplicaSetMap) :
    Notification → ReplicaSetMap × List LockEvent
  | .add obj => onAddReplicaSet globalRsInfo obj
  | .update objOld objNew => OnUpdateReplicaSet globalRsInfo objOld objNew
  | .delete obj => onDeleteReplicaSet globalRsInfo obj

/-- The cache after a sequence of notifications has been handled in order. -/
def deliver (globalRsInfo : ReplicaSetMap) : List Notification → ReplicaSetMap
  | [] => globalRsInfo
  | n :: rest => deliver (n.handle globalRsInfo).1 rest

/-- The keys a notification names: the key of its object, for an update the keys of the
old and of the new object. -/
def Notification.affectedKeys : Notification → List String
  | .add obj => [mapKey obj.Namespace obj.Name]
  | .update objOld objNew =>
    [mapKey objOld.Namespace objOld.Name, mapKey objNew.Namespace objNew.Name]
  | .delete obj => [mapKey obj.Namespace obj.Name]

/-- The keys whose map slot a notification assigns or deletes when it is handled: none
for an add without controller owner and for an update with equal resource versions. -/
def Notification.writtenKeys : Notification → List String
  | .add obj =>
    if (GetControllerOfNoCopy obj).isSome then [mapKey obj.Namespace obj.Name] else []
  | .update objOld objNew =>
    if objNew.ResourceVersion = objOld.ResourceVersion then []
    else
      mapKey objOld.Namespace objOld.Name ::
        (if (GetControllerOfNoCopy objNew).isSome then [mapKey objNew.Namespace objNew.Name]
         else [])
  | .delete obj => [mapKey obj.Namespace obj.Name]

/-- The subsequence of the notifications that are, for at least one of their keys (as
given by `keysOf`), the last notification of the sequence with that key. -/
def lastPerKey (keysOf : Notification → List String) : List Notification → List Notification
  | [] => []
  | n :: rest =>
    if ∃ k ∈ keysOf n, ∀ m ∈ rest, k ∉ keysOf m then n :: lastPerKey keysOf rest
    else lastPerKey keysOf rest

/-- The last notification of the sequence that writes the key `k`, if any. -/
def lastWriter (k : String) : List Notification → Option Notification
  | [] => none
  | n :: rest =>
    match lastWriter k rest with
    | some m => some m
    | none => if k ∈ n.writtenKeys then some n else none

/-- The number a resource-version token denotes, read as a decimal numeral. The handlers
only compare tokens for equality; the order is used to state monotonicity of a stream. -/
def rvValue (rv : String) : Nat :=
  rv.data.foldl (fun acc c => 10 * acc + (c.toNat - 48)) 0

/-- The (key, resource version) pairs a notification carries, in order. -/
def Notification.versions : Notification → List (String × String)
  | .add obj => [(mapKey obj.Namespace obj.Name, obj.ResourceVersion)]
  | .update objOld objNew =>
    [(mapKey objOld.Namespace objOld.Name, objOld.ResourceVersion),
     (mapKey objNew.Namespace objNew.Name, objNew.ResourceVersion)]
  | .delete obj => [(mapKey obj.Namespace obj.Name, obj.ResourceVersion)]

/-- Resource-version tokens are monotonically non-decreasing per key along the stream. -/
def rvMonotone (ns : List Notification) : Prop :=
  ((ns.map Notification.versions).flatten).Pairwise
    (fun a b => a.1 = b.1 → rvValue a.2 ≤ rvValue b.2)

instance (ns : List Notification) : Decidable (rvMonotone ns) := by
  unfold rvMonotone; infer_instance

/-! ## Lock discipline of a handler invocation -/

/-- Scan of a lock-event sequence with the flags "serialization token held" and "map lock
held": `ReplicaSetMap.mut` may only be acquired while `rsUpdateMutex` is held, and
`rsUpdateMutex` may only be released while `ReplicaSetMap.mut` is not held. -/
def tokenBracketsFrom : Bool → Bool → List LockEvent → Bool
  | _, _, [] => true
  | tokenHeld, mapHeld, e :: rest =>
    match e with
    | .rsUpdateMutexLock => tokenBracketsFrom true mapHeld rest
    | .rsUpdateMutexUnlock => !mapHeld && tokenBracketsFrom false mapHeld rest
    | .mutLock => tokenHeld && tokenBracketsFrom tokenHeld true rest
    | .mutRLock => tokenHeld && tokenBracketsFrom tokenHeld true rest
    | .mutUnlock => tokenBracketsFrom tokenHeld false rest
    | .mutRUnlock => tokenBracketsFrom tokenHeld false rest

/-- The lock discipline for the events of one handler invocation, which starts with
neither lock held. -/
def tokenBrackets (events : List LockEvent) : Bool :=
  tokenBracketsFrom false false events

/-! ## Concrete notifications used to evaluate the handlers -/

/-- A controller owner reference to the Deployment `deploy-A`. -/
def ownerDeployA : OwnerReference :=
  { APIVersion := "apps/v1", Kind := "Deployment", Name := "deploy-A", UID := "u-1",
    Controller := some true, BlockOwnerDeletion := some true }

/-- A controller owner reference to the Deployment `deploy-C`. -/
def ownerDeployC : OwnerReference :=
  { APIVersion := "apps/v1", Kind := "Deployment", Name := "deploy-C", UID := "u-3",
    Controller := some true, BlockOwnerDeletion := none }

/-- The ReplicaSet `ns1/rs-A` at resource version 1, controlled by `deploy-A`. -/
def rsA : ReplicaSet :=
  { Namespace := "ns1", Name := "rs-A", ResourceVersion := "1", Labels := [("app", "A")],
    OwnerReferences := [ownerDeployA] }

/-- The ReplicaSet `ns1/rs-A` at resource version 2, relabelled, still controlled by
`deploy-A`. -/
def rsA2 : ReplicaSet :=
  { Namespace := "ns1", Name := "rs-A", ResourceVersion := "2", Labels := [("app", "A2")],
    OwnerReferences := [ownerDeployA] }

/-- The ReplicaSet `ns1/rs-A` at resource version 2 after it lost its controller. -/
def rsAOrphan : ReplicaSet :=
  { Namespace := "ns1", Name := "rs-A", ResourceVersion := "2", Labels := [("app", "A")],
    OwnerReferences := [] }

/-- The ReplicaSet `ns1/rs-B`, which has no owner reference. -/
def rsB : ReplicaSet :=
  { Namespace := "ns1", Name := "rs-B", ResourceVersion := "1", Labels := [],
    OwnerReferences := [] }

/-- The ReplicaSet `ns1/rs-C` at resource version 1, controlled by `deploy-C`. -/
def rsC : ReplicaSet :=
  { Namespace := "ns1", Name := "rs-C", ResourceVersion := "1", Labels := [("app", "C")],
    OwnerReferences := [ownerDeployC] }

/-- The ReplicaSet `ns1/rs-C`, still at resource version 1, with other labels and no
owner reference. -/
def rsCResync : ReplicaSet :=
  { Namespace := "ns1", Name := "rs-C", ResourceVersion := "1", Labels := [("app", "X")],
    OwnerReferences := [] }

/-- The cache after the add notification for `rsA` on an empty cache. -/
def cacheA : ReplicaSetMap :=
  (onAddReplicaSet newReplicaSetMap rsA).1

/-- The cache after the add notification for `rsC` on an empty cache. -/
def cacheC : ReplicaSetMap :=
  (onAddReplicaSet newReplicaSetMap rsC).1

end Kubernetes

namespace Collector

/-! ## Errors -/

/-- A Go error value: an ordinary error with its message, or a `multierr` aggregate with
the messages of its members. -/
inductive GoError where
  | plain (msg : String)
  | multi (errors : List String)
  deriving DecidableEq, Repr

/-- The `Error()` string; a `multierr` aggregate joins its members with `"; "`. -/
def GoError.Error : GoError → String
  | .plain msg => msg
  | .multi errors => "; ".intercalate errors

/-- The member errors, as `multierr.Errors` gives them. -/
def GoError.Errors : GoError → List String
  | .plain msg => [msg]
  | .multi errors => errors

/-- The library function `multierr.Errors`: no member for nil. -/
def Errors (err : Option GoError) : List String :=
  match err with
  | none => []
  | some e => e.Errors

/-- The library function `multierr.Combine`: nil when no argument is non-nil, the argument
itself when exactly one is non-nil, otherwise an aggregate of the non-nil arguments with
nested aggregates flattened. -/
def Combine (errors : List (Option GoError)) : Option GoError :=
  match errors.filterMap id with
  | [] => none
  | [err] => some err
  | errs => some (GoError.multi ((errs.map GoError.Errors).flatten))

/-- The call `fmt.Errorf(format + "%v", err)`: always a non-nil error. -/
def Errorf (format : String) (err : GoError) : GoError :=
  GoError.plain (format ++ err.Error)

/-! ## Run and Shutdown

The analyzer manager and the receiver are interface values; what their methods return is
a parameter, and the calls made are recorded in order. -/

/-- The method calls `Run` and `Shutdown` make on the two components. -/
inductive Call where
  | analyzerManagerStartAll
  | receiverStart
  | receiverShutdown
  | analyzerManagerShutdownAll
  deriving DecidableEq, Repr

/-- The method `(a *Application) Run`. -/
def Run (startAll : Option GoError) (receiverStart : Option GoError) :
    List Call × Option GoError :=
  match startAll with
  | some err => ([Call.analyzerManagerStartAll], some (Errorf "failed to start application: " err))
  | none =>
    match receiverStart with
    | some err =>
      ([Call.analyzerManagerStartAll, Call.receiverStart],
        some (Errorf "failed to start application: " err))
    | none => ([Call.analyzerManagerStartAll, Call.receiverStart], none)

/-- The method `(a *Application) Shutdown`: the two arguments of `multierr.Combine` are
evaluated left to right. -/
def Shutdown (receiverShutdown : Option GoError) (shutdownAll : Option GoError) :
    List Call × Option GoError :=
  ([Call.receiverShutdown, Call.analyzerManagerShutdownAll],
    Combine [receiverShutdown, shutdownAll])

/-! ## buildPipeline -/

/-- The kinds of component `buildPipeline` constructs. -/
inductive ComponentKind where
  | Exporter
  | Processor
  | Analyzer
  | Manager
  | Receiver
  deriving DecidableEq, Repr

/-- The constructors `buildPipeline` calls: the registry entries it looks up (named by the
registry key) and `analyzer.NewManager`. -/
inductive Factory where
  | otelexporter_Otel
  | kindlingformatprocessor_ProcessorName
  | k8sprocessor_K8sMetadata
  | nodemetricprocessor_Type
  | network_Network
  | uprobeanalyzer_UprobeType
  | tcpmetricanalyzer_TcpMetric
  | analyzer_NewManager
  | udsreceiver_Uds
  deriving DecidableEq, Repr

/-- One constructor call: what is built and the components handed to the constructor,
each named by its position in the sequence of constructions. -/
structure Construction where
  kind : ComponentKind
  factory : Factory
  downstream : List Nat
  deriving DecidableEq, Repr

/-- The `Application` fields `buildPipeline` assigns (nil, `none`, before). -/
structure Application where
  receiver : Option Nat
  analyzerManager : Option Nat
  deriving DecidableEq, Repr

/-- A constructor call: it is appended to the constructions made so far and the new
component is named by its position. -/
def construct (kind : ComponentKind) (factory : Factory) (downstream : List Nat) :
    StateM (List Construction) Nat :=
  fun constructions =>
    (constructions.length, constructions ++ [{ kind := kind, factory := factory, downstream := downstream }])

/-- The wrap `fmt.Errorf(format + "%w", err)`. -/
def ErrorfWrap (format : String) (err : GoError) : GoError :=
  GoError.plain (format ++ err.Error)

/-- The method `(a *Application) buildPipeline`, as a computation over the sequence of
constructions made so far. `NewManager` is what `analyzer.NewManager` answers for the
analyzers it is given (nil or an error); its call is recorded as the construction of the
manager whether or not it answers an error. The source heads the constructions of
`formatProcessor` to `k8sMetadataProcessorForNodeMetric` with the comment "Initialize all
processors" and those from `networkAnalyzer` on with "Initialize all analyzers";
`k8sMetadataProcessor2` is constructed in the second section. -/
def buildPipeline (NewManager : List Nat → Option GoError) (a : Application) :
    StateM (List Construction) (Application × Option GoError) := do
  let otelExporter ← construct .Exporter .otelexporter_Otel []
  let formatProcessor ←
    construct .Processor .kindlingformatprocessor_ProcessorName [otelExporter]
  let k8sMetadataProcessor ← construct .Processor .k8sprocessor_K8sMetadata [formatProcessor]
  let nodeMetricProcessor ← construct .Processor .nodemetricprocessor_Type [otelExporter]
  let k8sMetadataProcessorForNodeMetric ←
    construct .Processor .k8sprocessor_K8sMetadata [nodeMetricProcessor]
  let networkAnalyzer ←
    construct .Analyzer .network_Network
      [k8sMetadataProcessor, k8sMetadataProcessorForNodeMetric]
  let uprobeAnalyzer ←
    construct .Analyzer .uprobeanalyzer_UprobeType
      [k8sMetadataProcessor, k8sMetadataProcessorForNodeMetric]
  let k8sMetadataProcessor2 ← construct .Processor .k8sprocessor_K8sMetadata [otelExporter]
  let tcpAnalyzer ← construct .Analyzer .tcpmetricanalyzer_TcpMetric [k8sMetadataProcessor2]
  let analyzerManager ←
    construct .Manager .analyzer_NewManager [networkAnalyzer, tcpAnalyzer, uprobeAnalyzer]
  match NewManager [networkAnalyzer, tcpAnalyzer, uprobeAnalyzer] with
  | some err =>
    return (a, some (ErrorfWrap "error happened while creating analyzer manager: " err))
  | none =>
    let a1 := { a with analyzerManager := some analyzerManager }
    let udsReceiver ← construct .Receiver .udsreceiver_Uds [analyzerManager]
    return ({ a1 with receiver := some udsReceiver }, none)

/-- The `Application` as `New` hands it to `buildPipeline`: both fields still nil. -/
def newApplication : Application :=
  { receiver := none, analyzerManager := none }

/-- An `analyzer.NewManager` that accepts every list of analyzers. -/
def managerAccepts : List Nat → Option GoError :=
  fun _ => none

/-- Rank of a kind in the order exporter, processing stage, analyzer, manager, receiver. -/
def ComponentKind.rank : ComponentKind → Nat
  | .Exporter => 0
  | .Processor => 1
  | .Analyzer => 2
  | .Manager => 3
  | .Receiver => 4

/-- Leaves-first by kind: along the sequence of constructions the kinds never go back in
the order exporter, processing stage, analyzer, manager, receiver. -/
def leavesFirstByKind (constructions : List Construction) : Prop :=
  constructions.Pairwise (fun c d => c.kind.rank ≤ d.kind.rank)

instance (constructions : List Construction) : Decidable (leavesFirstByKind constructions) := by
  unfold leavesFirstByKind; infer_instance

end Collector

end Kindling

/-! # Properties of the metadata cache -/

namespace Kindling.Kubernetes

/-! ## Helper lemmas -/

theorem put_Info (c : ReplicaSetMap) (key : String) (rsi : ReplicaSetInfo) (k : String) :
    (c.put key rsi).1.Info k = if k = key then some rsi else c.Info k := rfl

theorem deleteOwnerReference_Info (c : ReplicaSetMap) (key : String) (k : String) :
    (c.deleteOwnerReference key).1.Info k = if k = key then none else c.Info k := rfl

theorem onAddReplicaSet_none (c : ReplicaSetMap) (rs : ReplicaSet)
    (h : GetControllerOfNoCopy rs = none) : onAddReplicaSet c rs = (c, []) := by
  simp [onAddReplicaSet, h]

theorem onAddReplicaSet_some (c : ReplicaSetMap) (rs : ReplicaSet) (ownerRef : OwnerReference)
    (h : GetControllerOfNoCopy rs = some ownerRef) :
    onAddReplicaSet c rs =
      c.put (mapKey rs.Namespace rs.Name)
        ⟨⟨ownerRef.Name, ownerRef.Kind, ownerRef.APIVersion⟩, rs.Labels⟩ := by
  simp [onAddReplicaSet, h]

theorem OnUpdateReplicaSet_of_eq_version (c : ReplicaSetMap) (oldRs newRs : ReplicaSet)
    (h : oldRs.ResourceVersion = newRs.ResourceVersion) :
    OnUpdateReplicaSet c oldRs newRs = (c, []) := by
  simp [OnUpdateReplicaSet, h]

theorem OnUpdateReplicaSet_of_controller (c : ReplicaSetMap) (oldRs newRs : ReplicaSet)
    (hns : oldRs.Namespace = newRs.Namespace) (hname : oldRs.Name = newRs.Name)
    (hrv : oldRs.ResourceVersion ≠ newRs.ResourceVersion)
    (hctl : GetControllerOfNoCopy newRs ≠ none) :
    (OnUpdateReplicaSet c oldRs newRs).1 = (onAddReplicaSet c newRs).1 := by
  obtain ⟨ownerRef, h⟩ := Option.ne_none_iff_exists'.1 hctl
  have hrv' : ¬ newRs.ResourceVersion = oldRs.ResourceVersion := fun e => hrv e.symm
  apply ReplicaSetMap.ext
  funext k
  simp only [OnUpdateReplicaSet, hrv', if_false, onAddReplicaSet_some _ _ _ h, put_Info,
    onDeleteReplicaSet, deleteOwnerReference_Info, hns, hname]
  split <;> rfl

theorem handle_frame (c : ReplicaSetMap) (n : Notification) (k : String)
    (hk : k ∉ n.writtenKeys) : (n.handle c).1.Info k = c.Info k := by
  cases n with
  | add obj =>
    cases h : GetControllerOfNoCopy obj with
    | none => simp [Notification.handle, onAddReplicaSet_none _ _ h]
    | some ref =>
      simp [Notification.writtenKeys, h] at hk
      simp [Notification.handle, onAddReplicaSet_some _ _ _ h, put_Info, hk]
  | update objOld objNew =>
    by_cases hrv : objNew.ResourceVersion = objOld.ResourceVersion
    · simp [Notification.handle, OnUpdateReplicaSet, hrv]
    · cases h : GetControllerOfNoCopy objNew with
      | none =>
        simp [Notification.writtenKeys, hrv, h] at hk
        simp [Notification.handle, OnUpdateReplicaSet, hrv, onAddReplicaSet_none _ _ h,
          onDeleteReplicaSet, deleteOwnerReference_Info, hk]
      | some ref =>
        simp [Notification.writtenKeys, hrv, h] at hk
        simp [Notification.handle, OnUpdateReplicaSet, hrv, onAddReplicaSet_some _ _ _ h,
          onDeleteReplicaSet, deleteOwnerReference_Info, put_Info, hk]
  | delete obj =>
    simp [Notification.writtenKeys] at hk
    simp [Notification.handle, onDeleteReplicaSet, deleteOwnerReference_Info, hk]

theorem handle_overwrite (c c' : ReplicaSetMap) (n : Notification) (k : String)
    (hk : k ∈ n.writtenKeys) : (n.handle c).1.Info k = (n.handle c').1.Info k := by
  cases n with
  | add obj =>
    cases h : GetControllerOfNoCopy obj with
    | none => simp [Notification.writtenKeys, h] at hk
    | some ref =>
      simp [Notification.writtenKeys, h] at hk
      simp [Notification.handle, onAddReplicaSet_some _ _ _ h, put_Info, hk]
  | update objOld objNew =>
    by_cases hrv : objNew.ResourceVersion = objOld.ResourceVersion
    · simp [Notification.writtenKeys, hrv] at hk
    · cases h : GetControllerOfNoCopy objNew with
      | none =>
        simp [Notification.writtenKeys, hrv, h] at hk
        simp [Notification.handle, OnUpdateReplicaSet, hrv, onAddReplicaSet_none _ _ h,
          onDeleteReplicaSet, deleteOwnerReference_Info, hk]
      | some ref =>
        simp [Notification.writtenKeys, hrv, h] at hk
        simp only [Notification.handle, OnUpdateReplicaSet, hrv, if_false,
          onAddReplicaSet_some _ _ _ h, onDeleteReplicaSet, deleteOwnerReference_Info, put_Info]
        rcases hk with hk | hk
        · subst hk
          by_cases hkey : mapKey objOld.Namespace objOld.Name = mapKey objNew.Namespace objNew.Name
          · simp [hkey]
          · simp [hkey]
        · subst hk
          simp
  | delete obj =>
    simp [Notification.writtenKeys] at hk
    simp [Notification.handle, onDeleteReplicaSet, deleteOwnerReference_Info, hk]

theorem deliver_frame (ns : List Notification) (k : String) :
    ∀ c : ReplicaSetMap, (∀ m ∈ ns, k ∉ m.writtenKeys) → (deliver c ns).Info k = c.Info k := by
  induction ns with
  | nil => intro c _; rfl
  | cons n rest ih =>
    intro c h
    simp only [deliver]
    rw [ih _ (fun m hm => h m (List.mem_cons_of_mem _ hm))]
    exact handle_frame c n k (h n (List.mem_cons_self _ _))

theorem deliver_overwrite (ns : List Notification) (k : String) :
    ∀ c c' : ReplicaSetMap, (∃ m ∈ ns, k ∈ m.writtenKeys) →
      (deliver c ns).Info k = (deliver c' ns).Info k := by
  induction ns with
  | nil => intro c c' h; simp at h
  | cons n rest ih =>
    intro c c' h
    simp only [deliver]
    by_cases hrest : ∃ m ∈ rest, k ∈ m.writtenKeys
    · exact ih _ _ hrest
    · have hnone : ∀ m ∈ rest, k ∉ m.writtenKeys := by
        intro m hm hmem
        exact hrest ⟨m, hm, hmem⟩
      rw [deliver_frame rest k _ hnone, deliver_frame rest k _ hnone]
      obtain ⟨m, hm, hmem⟩ := h
      rcases List.mem_cons.1 hm with rfl | hm
      · exact handle_overwrite c c' m k hmem
      · exact absurd hmem (hnone m hm)

theorem deliver_lastPerKey (ns : List Notification) :
    ∀ c : ReplicaSetMap, deliver c ns = deliver c (lastPerKey Notification.writtenKeys ns) := by
  induction ns with
  | nil => intro c; rfl
  | cons n rest ih =>
    intro c
    by_cases hkeep : ∃ k ∈ n.writtenKeys, ∀ m ∈ rest, k ∉ m.writtenKeys
    · simp only [lastPerKey, if_pos hkeep, deliver]
      exact ih _
    · simp only [lastPerKey, if_neg hkeep, deliver]
      rw [← ih c]
      apply ReplicaSetMap.ext
      funext k
      by_cases hrest : ∃ m ∈ rest, k ∈ m.writtenKeys
      · exact deliver_overwrite rest k _ _ hrest
      · have hnone : ∀ m ∈ rest, k ∉ m.writtenKeys := by
          intro m hm hmem
          exact hrest ⟨m, hm, hmem⟩
        rw [deliver_frame rest k _ hnone, deliver_frame rest k _ hnone]
        apply handle_frame
        intro hmem
        exact hkeep ⟨k, hmem, hnone⟩

/-! ## The handlers -/

/-- C2: an add notification for an object without controller owner reference leaves the
cache unchanged; for an object whose controller owner reference is `ownerRef` the cache
becomes the prior cache with the key `namespace/name` mapped to the record of the owner's
name, kind and API version and the object's labels, other keys untouched, and
`GetReplicaSetInfo` on that key answers that record with `found = true`. -/
theorem onAddReplicaSet_spec (c : ReplicaSetMap) (rs : ReplicaSet) :
    (GetControllerOfNoCopy rs = none → (onAddReplicaSet c rs).1 = c) ∧
    (∀ ownerRef, GetControllerOfNoCopy rs = some ownerRef →
      (onAddReplicaSet c rs).1.Info =
        Function.update c.Info (mapKey rs.Namespace rs.Name)
          (some ⟨⟨ownerRef.Name, ownerRef.Kind, ownerRef.APIVersion⟩, rs.Labels⟩) ∧
      ((onAddReplicaSet c rs).1.GetReplicaSetInfo (mapKey rs.Namespace rs.Name)).1 =
        (some ⟨⟨ownerRef.Name, ownerRef.Kind, ownerRef.APIVersion⟩, rs.Labels⟩, true)) := by
  refine ⟨fun h => ?_, fun ownerRef h => ⟨?_, ?_⟩⟩
  · rw [onAddReplicaSet_none c rs h]
  · rw [onAddReplicaSet_some c rs ownerRef h]
    funext k
    simp [put_Info, Function.update_apply]
  · rw [onAddReplicaSet_some c rs ownerRef h]
    simp [ReplicaSetMap.GetReplicaSetInfo, put_Info]

/-- Witness for C2: on the empty cache the add of `ns1/rs-B` (no owner) changes nothing,
and after the add of `ns1/rs-A` the lookup of `ns1/rs-A` finds the record of `deploy-A`. -/
theorem onAddReplicaSet_spec_witness :
    (onAddReplicaSet newReplicaSetMap rsB).1 = newReplicaSetMap ∧
    ((onAddReplicaSet newReplicaSetMap rsA).1.GetReplicaSetInfo "ns1/rs-A").1 =
      (some ⟨⟨"deploy-A", "Deployment", "apps/v1"⟩, [("app", "A")]⟩, true) :=
  ⟨(onAddReplicaSet_spec newReplicaSetMap rsB).1 (by decide),
    ((onAddReplicaSet_spec newReplicaSetMap rsA).2 ownerDeployA (by decide)).2⟩

/-- C3: a delete notification turns the cache into the prior cache with the key
`namespace/name` of the object removed: the lookup of that key answers `found = false`,
no other key changes, and when the key had no entry the cache is unchanged. -/
theorem onDeleteReplicaSet_spec (c : ReplicaSetMap) (rs : ReplicaSet) :
    (onDeleteReplicaSet c rs).1.Info =
      Function.update c.Info (mapKey rs.Namespace rs.Name) none ∧
    ((onDeleteReplicaSet c rs).1.GetReplicaSetInfo (mapKey rs.Namespace rs.Name)).1 =
      (none, false) ∧
    (∀ k, k ≠ mapKey rs.Namespace rs.Name → (onDeleteReplicaSet c rs).1.Info k = c.Info k) ∧
    (c.Info (mapKey rs.Namespace rs.Name) = none → (onDeleteReplicaSet c rs).1 = c) := by
  refine ⟨?_, ?_, ?_, ?_⟩
  · funext k
    simp [onDeleteReplicaSet, deleteOwnerReference_Info, Function.update_apply]
  · simp [onDeleteReplicaSet, ReplicaSetMap.GetReplicaSetInfo, deleteOwnerReference_Info]
  · intro k hk
    simp [onDeleteReplicaSet, deleteOwnerReference_Info, hk]
  · intro h
    apply ReplicaSetMap.ext
    funext k
    by_cases hk : k = mapKey rs.Namespace rs.Name
    · simp [onDeleteReplicaSet, deleteOwnerReference_Info, hk, h]
    · simp [onDeleteReplicaSet, deleteOwnerReference_Info, hk]

/-- Witness for C3: deleting `ns1/rs-B` from the cache holding `ns1/rs-A` keeps the entry
of `ns1/rs-A`, and deleting `ns1/rs-A` from the empty cache leaves it empty. -/
theorem onDeleteReplicaSet_spec_witness :
    (onDeleteReplicaSet cacheA rsB).1.Info "ns1/rs-A" = cacheA.Info "ns1/rs-A" ∧
    (onDeleteReplicaSet newReplicaSetMap rsA).1 = newReplicaSetMap :=
  ⟨(onDeleteReplicaSet_spec cacheA rsB).2.2.1 "ns1/rs-A" (by decide),
    (onDeleteReplicaSet_spec newReplicaSetMap rsA).2.2.2 rfl⟩

/-- C4: an update notification whose old and new object carry the same resource version
leaves the cache unchanged (and takes no lock), whatever else the two objects hold. -/
theorem OnUpdateReplicaSet_same_version (c : ReplicaSetMap) (oldRs newRs : ReplicaSet)
    (h : oldRs.ResourceVersion = newRs.ResourceVersion) :
    OnUpdateReplicaSet c oldRs newRs = (c, []) :=
  OnUpdateReplicaSet_of_eq_version c oldRs newRs h

/-- Witness for C4: after the add of `ns1/rs-C` at version 1, an update to an object with
other labels and no owner but still version 1 changes nothing. -/
theorem OnUpdateReplicaSet_same_version_witness :
    rsC.ResourceVersion = rsCResync.ResourceVersion ∧
    OnUpdateReplicaSet cacheC rsC rsCResync = (cacheC, []) :=
  ⟨by decide, OnUpdateReplicaSet_same_version cacheC rsC rsCResync (by decide)⟩

/-- C10: an update notification whose objects share namespace and name, differ in resource
version, and whose new object has a controller owner reference, produces the same cache as
an add notification for the new object alone, whatever the prior cache holds at the key. -/
theorem OnUpdateReplicaSet_eq_add (c : ReplicaSetMap) (oldRs newRs : ReplicaSet)
    (hns : oldRs.Namespace = newRs.Namespace) (hname : oldRs.Name = newRs.Name)
    (hrv : oldRs.ResourceVersion ≠ newRs.ResourceVersion)
    (hctl : GetControllerOfNoCopy newRs ≠ none) :
    (OnUpdateReplicaSet c oldRs newRs).1 = (onAddReplicaSet c newRs).1 :=
  OnUpdateReplicaSet_of_controller c oldRs newRs hns hname hrv hctl

/-- Witness for C10: on the empty cache (key absent) and on the cache holding `ns1/rs-A`
(key present) the update from `rsA` (version 1) to `rsA2` (version 2) acts as the add of
`rsA2`. -/
theorem OnUpdateReplicaSet_eq_add_witness :
    (OnUpdateReplicaSet newReplicaSetMap rsA rsA2).1 = (onAddReplicaSet newReplicaSetMap rsA2).1 ∧
    (OnUpdateReplicaSet cacheA rsA rsA2).1 = (onAddReplicaSet cacheA rsA2).1 :=
  ⟨OnUpdateReplicaSet_eq_add newReplicaSetMap rsA rsA2 rfl rfl (by decide) (by decide),
    OnUpdateReplicaSet_eq_add cacheA rsA rsA2 rfl rfl (by decide) (by decide)⟩

/-- The claim C9 fails for an update whose new object lost its controller: the cache holds
`ns1/rs-A`, the update from `rsA` (version 1) to `rsAOrphan` (version 2, same namespace
and name, no owner reference) leaves no entry at `ns1/rs-A`. -/
theorem OnUpdateReplicaSet_orphan_drops_entry :
    rsA.Namespace = rsAOrphan.Namespace ∧ rsA.Name = rsAOrphan.Name ∧
    (cacheA.Info "ns1/rs-A").isSome = true ∧
    ((OnUpdateReplicaSet cacheA rsA rsAOrphan).1.Info "ns1/rs-A").isSome = false := by
  decide

/-- C9, amended: a key that has an entry keeps an entry through every add notification and
through every update notification (old and new sharing namespace and name) whose resource
versions are equal or whose new object has a controller owner reference; an update with
different resource versions whose new object has no controller owner reference removes
the entry of that key and changes no other key. -/
theorem entry_kept_unless_orphaned (c : ReplicaSetMap) (k : String)
    (hk : (c.Info k).isSome = true) :
    (∀ rs, ((onAddReplicaSet c rs).1.Info k).isSome = true) ∧
    (∀ oldRs newRs, oldRs.Namespace = newRs.Namespace → oldRs.Name = newRs.Name →
      (oldRs.ResourceVersion = newRs.ResourceVersion ∨ GetControllerOfNoCopy newRs ≠ none) →
      ((OnUpdateReplicaSet c oldRs newRs).1.Info k).isSome = true) ∧
    (∀ oldRs newRs, oldRs.Namespace = newRs.Namespace → oldRs.Name = newRs.Name →
      oldRs.ResourceVersion ≠ newRs.ResourceVersion → GetControllerOfNoCopy newRs = none →
      (OnUpdateReplicaSet c oldRs newRs).1.Info =
        Function.update c.Info (mapKey oldRs.Namespace oldRs.Name) none) := by
  have hadd : ∀ (c' : ReplicaSetMap) (rs : ReplicaSet), (c'.Info k).isSome = true →
      ((onAddReplicaSet c' rs).1.Info k).isSome = true := by
    intro c' rs hk'
    cases h : GetControllerOfNoCopy rs with
    | none => rw [onAddReplicaSet_none c' rs h]; exact hk'
    | some ref =>
      rw [onAddReplicaSet_some c' rs ref h, put_Info]
      split
      · rfl
      · exact hk'
  refine ⟨fun rs => hadd c rs hk, ?_, ?_⟩
  · intro oldRs newRs hns hname hcase
    by_cases hrv : oldRs.ResourceVersion = newRs.ResourceVersion
    · rw [OnUpdateReplicaSet_of_eq_version c oldRs newRs hrv]; exact hk
    · have hctl : GetControllerOfNoCopy newRs ≠ none := by
        rcases hcase with h | h
        · exact absurd h hrv
        · exact h
      rw [OnUpdateReplicaSet_of_controller c oldRs newRs hns hname hrv hctl]
      exact hadd c newRs hk
  · intro oldRs newRs hns hname hrv hctl
    have hrv' : ¬ newRs.ResourceVersion = oldRs.ResourceVersion := fun e => hrv e.symm
    funext k'
    simp [OnUpdateReplicaSet, hrv', onAddReplicaSet_none _ _ hctl, onDeleteReplicaSet,
      deleteOwnerReference_Info, Function.update_apply, hns, hname]

/-- Witness for C9, amended: the entry of `ns1/rs-A` survives the add of `ns1/rs-C` and the
update from `rsA` to `rsA2`, and the update from `rsA` to `rsAOrphan` removes it. -/
theorem entry_kept_unless_orphaned_witness :
    ((onAddReplicaSet cacheA rsC).1.Info "ns1/rs-A").isSome = true ∧
    ((OnUpdateReplicaSet cacheA rsA rsA2).1.Info "ns1/rs-A").isSome = true ∧
    (OnUpdateReplicaSet cacheA rsA rsAOrphan).1.Info =
      Function.update cacheA.Info (mapKey rsA.Namespace rsA.Name) none :=
  ⟨(entry_kept_unless_orphaned cacheA "ns1/rs-A" (by decide)).1 rsC,
    (entry_kept_unless_orphaned cacheA "ns1/rs-A" (by decide)).2.1 rsA rsA2 rfl rfl
      (Or.inr (by decide)),
    (entry_kept_unless_orphaned cacheA "ns1/rs-A" (by decide)).2.2 rsA rsAOrphan rfl rfl
      (by decide) (by decide)⟩

/-! ## The notification stream -/

/-- The claim C1 fails on the stream "add `ns1/rs-C` at version 1, then update with old and
new at version 1": the tokens are non-decreasing per key, the last notification naming
`ns1/rs-C` is the update, the cache after the whole stream holds `ns1/rs-C`, and the
cache after the update alone is empty. -/
theorem deliver_last_affecting_differs :
    rvMonotone [Notification.add rsC, Notification.update rsC rsCResync] ∧
    lastPerKey Notification.affectedKeys
        [Notification.add rsC, Notification.update rsC rsCResync] =
      [Notification.update rsC rsCResync] ∧
    deliver newReplicaSetMap [Notification.add rsC, Notification.update rsC rsCResync] ≠
      deliver newReplicaSetMap
        (lastPerKey Notification.affectedKeys
          [Notification.add rsC, Notification.update rsC rsCResync]) := by
  refine ⟨by decide, by decide, ?_⟩
  intro h
  have hkey := congrArg (fun m : ReplicaSetMap => (m.Info "ns1/rs-C").isSome) h
  revert hkey
  decide

/-- C1, amended: for every sequence of add, update and delete notifications delivered in
order to an empty cache, the final cache holds at every key what the last notification
that writes that key yields alone on an empty cache (nothing when no notification writes
the key), and it equals the cache obtained by delivering only the notifications that are
the last to write one of their keys. An add without controller owner reference and an
update with equal resource versions write no key. -/
theorem deliver_last_writers (ns : List Notification) :
    (∀ k, (deliver newReplicaSetMap ns).Info k =
      match lastWriter k ns with
      | none => none
      | some n => (n.handle newReplicaSetMap).1.Info k) ∧
    deliver newReplicaSetMap ns =
      deliver newReplicaSetMap (lastPerKey Notification.writtenKeys ns) := by
  refine ⟨fun k => ?_, deliver_lastPerKey ns newReplicaSetMap⟩
  have key : ∀ (l : List Notification) (c : ReplicaSetMap), (deliver c l).Info k =
      match lastWriter k l with
      | none => c.Info k
      | some n => (n.handle newReplicaSetMap).1.Info k := by
    intro l
    induction l with
    | nil => intro c; rfl
    | cons n rest ih =>
      intro c
      simp only [deliver, lastWriter]
      rw [ih]
      cases hlast : lastWriter k rest with
      | some m => rfl
      | none =>
        by_cases hmem : k ∈ n.writtenKeys
        · simp only [if_pos hmem]
          exact handle_overwrite c newReplicaSetMap n k hmem
        · simp only [if_neg hmem]
          exact handle_frame c n k hmem
  rw [key ns newReplicaSetMap]
  cases lastWriter k ns <;> rfl

/-! ## Lock discipline -/

/-- The claim C5 fails for the add handler: handling the add notification of `ns1/rs-A`
acquires and releases the map lock and never touches the serialization token. -/
theorem onAddReplicaSet_no_token :
    ((Notification.add rsA).handle newReplicaSetMap).2 =
      [LockEvent.mutLock, LockEvent.mutUnlock] ∧
    tokenBrackets ((Notification.add rsA).handle newReplicaSetMap).2 = false := by
  decide

/-- C5, amended: every invocation of the update handler acquires `rsUpdateMutex` before it
first acquires the map lock and releases it after it last releases the map lock (with equal
resource versions it takes no lock at all); the add and delete handlers invoked as
notification handlers take only the map lock, never the serialization token. -/
theorem OnUpdateReplicaSet_token_brackets (c : ReplicaSetMap) (oldRs newRs rs : ReplicaSet) :
    tokenBrackets (OnUpdateReplicaSet c oldRs newRs).2 = true ∧
    (OnUpdateReplicaSet c oldRs newRs).2 =
      (if newRs.ResourceVersion = oldRs.ResourceVersion then []
       else [LockEvent.rsUpdateMutexLock] ++ (onDeleteReplicaSet c oldRs).2 ++
         (onAddReplicaSet (onDeleteReplicaSet c oldRs).1 newRs).2 ++
         [LockEvent.rsUpdateMutexUnlock]) ∧
    (onDeleteReplicaSet c rs).2 = [LockEvent.mutLock, LockEvent.mutUnlock] ∧
    (onAddReplicaSet c rs).2 =
      (if GetControllerOfNoCopy rs = none then []
       else [LockEvent.mutLock, LockEvent.mutUnlock]) := by
  have hadd : ∀ (c' : ReplicaSetMap) (r : ReplicaSet), (onAddReplicaSet c' r).2 =
      (if GetControllerOfNoCopy r = none then []
       else [LockEvent.mutLock, LockEvent.mutUnlock]) := by
    intro c' r
    cases h : GetControllerOfNoCopy r with
    | none => simp [onAddReplicaSet_none c' r h]
    | some ref => simp [onAddReplicaSet_some c' r ref h, ReplicaSetMap.put]
  refine ⟨?_, ?_, rfl, hadd c rs⟩
  · by_cases hrv : newRs.ResourceVersion = oldRs.ResourceVersion
    · simp [OnUpdateReplicaSet, hrv, tokenBrackets, tokenBracketsFrom]
    · simp only [OnUpdateReplicaSet, hrv, if_false, hadd]
      by_cases h : GetControllerOfNoCopy newRs = none
      · simp [h, onDeleteReplicaSet, ReplicaSetMap.deleteOwnerReference, tokenBrackets,
          tokenBracketsFrom]
      · simp [h, onDeleteReplicaSet, ReplicaSetMap.deleteOwnerReference, tokenBrackets,
          tokenBracketsFrom]
  · by_cases hrv : newRs.ResourceVersion = oldRs.ResourceVersion
    · simp [OnUpdateReplicaSet, hrv]
    · simp [OnUpdateReplicaSet, hrv]

end Kindling.Kubernetes

/-! # Properties of the application -/

namespace Kindling.Collector

/-! ## Helper lemmas -/

theorem Combine_pair (r s : Option GoError) :
    Combine [r, s] =
      match r, s with
      | none, none => none
      | some e, none => some e
      | none, some e => some e
      | some e, some f => some (GoError.multi (e.Errors ++ f.Errors)) := by
  cases r <;> cases s <;> simp [Combine]

/-! ## buildPipeline -/

/-- C6, evaluated on the code: with an analyzer manager that is created without error,
`buildPipeline` constructs, in order, the exporter, four processing stages, the network and
uprobe analyzers, a fifth processing stage (`k8sMetadataProcessor2`, a Kubernetes metadata
processor wrapping the exporter), the tcp analyzer, the manager and the receiver. The
eighth construction is thus a processing stage made after two analyzers, inside the
section the source heads "Initialize all analyzers" and outside the one it heads
"Initialize all processors": the order is not leaves-first by kind. -/
theorem buildPipeline_not_by_kind :
    (buildPipeline managerAccepts newApplication []).1.2 = none ∧
    (buildPipeline managerAccepts newApplication []).2.map (fun c => c.kind) =
      [.Exporter, .Processor, .Processor, .Processor, .Processor, .Analyzer, .Analyzer,
        .Processor, .Analyzer, .Manager, .Receiver] ∧
    (buildPipeline managerAccepts newApplication []).2.get? 7 =
      some { kind := .Processor, factory := .k8sprocessor_K8sMetadata, downstream := [0] } ∧
    ¬ leavesFirstByKind (buildPipeline managerAccepts newApplication []).2 := by
  decide

/-! ## Run and Shutdown -/

/-- C7: `Run` returns no error exactly when `StartAll` and the receiver's `Start` both
return no error; `StartAll` is always called first; when `StartAll` returns an error, `Run`
returns an error and the receiver's `Start` is never called; when `StartAll` returns no
error, the receiver's `Start` is called next. -/
theorem Run_spec (startAll receiverStart : Option GoError) :
    ((Run startAll receiverStart).2 = none ↔ startAll = none ∧ receiverStart = none) ∧
    (startAll ≠ none →
      (Run startAll receiverStart).2 ≠ none ∧
      (Run startAll receiverStart).1 = [Call.analyzerManagerStartAll]) ∧
    (startAll = none →
      (Run startAll receiverStart).1 = [Call.analyzerManagerStartAll, Call.receiverStart]) := by
  cases startAll <;> cases receiverStart <;> simp [Run]

/-- Witness for C7: when `StartAll` fails, `Run` fails after the single call `StartAll`,
also when the receiver would have started; when `StartAll` succeeds the receiver is
started. -/
theorem Run_spec_witness :
    ((Run (some (GoError.plain "analyzer failed")) none).2 ≠ none ∧
      (Run (some (GoError.plain "analyzer failed")) none).1 = [Call.analyzerManagerStartAll]) ∧
    (Run none none).1 = [Call.analyzerManagerStartAll, Call.receiverStart] :=
  ⟨(Run_spec (some (GoError.plain "analyzer failed")) none).2.1 (by decide),
    (Run_spec none none).2.2 rfl⟩

/-- C8: whatever the receiver's `Shutdown` and `ShutdownAll` return, `Shutdown` calls the
receiver's `Shutdown` first and `ShutdownAll` second, both always, and returns the
aggregate of the two results: its member errors are those of the first followed by those
of the second, and it is nil exactly when both results are nil. -/
theorem Shutdown_spec (receiverShutdown shutdownAll : Option GoError) :
    (Shutdown receiverShutdown shutdownAll).1 =
      [Call.receiverShutdown, Call.analyzerManagerShutdownAll] ∧
    Errors (Shutdown receiverShutdown shutdownAll).2 =
      Errors receiverShutdown ++ Errors shutdownAll ∧
    ((Shutdown receiverShutdown shutdownAll).2 = none ↔
      receiverShutdown = none ∧ shutdownAll = none) := by
  refine ⟨rfl, ?_, ?_⟩
  · simp only [Shutdown, Combine_pair]
    cases receiverShutdown <;> cases shutdownAll <;> simp [Errors, GoError.Errors]
  · simp only [Shutdown, Combine_pair]
    cases receiverShutdown <;> cases shutdownAll <;> simp

end Kindling.Collector
